import Mathlib

/-!
Verification of the Swedish labour-market analytics repository against its
natural-language specification.

The repository's data-pipeline (ingestion/transformation) layer is present in
the repository only through its design documents (`data-pipeline/DATAMAP.md`,
`.github/info/labour-stats.md`); the Python modules themselves are not part of
the source tree.  The pipeline-side definitions below are therefore modelled
from the specification, as indicated on each definition.  The frontend
(React/JS) components are present in the source tree and are embedded
directly from the files under `frontend/src`.

All JavaScript/Python numbers are modelled as exact integers (`Int`); the
suppression sentinel / JS `null`/`undefined` are modelled by `Option`.
-/

namespace LabourStats

/-! ## Definitions

### Idempotent store writer (spec section 4.7)

Modelled from the spec: the store is a keyed collection of rows; `upsertRow`
is "insert or replace by key"; `upsert` writes a batch of rows in order.
The definitions are generic in the row type and key projection. -/

section UpsertDefs

variable {α κ : Type} [DecidableEq κ]

/-- Modelled from the spec: the `Idempotent Store Writer` is absent from the
source tree.  Insert-or-replace of one row into the store, keyed by `key`. -/
def upsertRow (key : α → κ) (st : List α) (r : α) : List α :=
  if st.any (fun p => key p = key r) then
    st.map (fun p => if key p = key r then r else p)
  else st ++ [r]

/-- Modelled from the spec: batch upsert, rows written in sequence order. -/
def upsert (key : α → κ) (st : List α) (rs : List α) : List α :=
  rs.foldl (upsertRow key) st

/-- The last row of `rs` that writes key `k`, if any. -/
def lastWrite (key : α → κ) (rs : List α) (k : κ) : Option α :=
  rs.reverse.find? (fun r => key r = k)

/-- Replace a stored row by the last row of `rs` with the same key, if any. -/
def substLast (key : α → κ) (rs : List α) (p : α) : α :=
  match lastWrite key rs (key p) with
  | some v => v
  | none => p

end UpsertDefs

/-! ### Surrogate keys and Tidy Fact Rows (spec sections 3, 4.6, 4.7) -/

/-- Decimal digit characters of a natural number (least significant first). -/
def natKeyChars (n : Nat) : List Char :=
  (Nat.digits 10 n).map Nat.digitChar

/-- Modelled from the spec: rendering of the `year:int` field inside the
surrogate key (the Tidy Transformer is absent from the source tree). -/
def intKeyChars (y : Int) : List Char :=
  if y < 0 then '-' :: natKeyChars (-y).toNat else natKeyChars y.toNat

/-- Modelled from the spec: the Tidy Transformer's deterministic
`surrogate_key` — "a stable hash over the ordered tuple
`(year, occupation_code, region_code, gender, measure_name)`" — is absent
from the source tree; it is modelled as a collision-free field-separated
rendering of that ordered tuple. -/
def surrogate_key (year : Int) (occ region gender measure : String) : String :=
  String.mk (intKeyChars year ++
    '|' :: (occ.data ++ '|' :: (region.data ++ '|' :: (gender.data ++ '|' :: measure.data))))

/-- Spec section 3: the canonical output unit of the pipeline. -/
structure TidyFactRow where
  surrogate_key : String
  year : Int
  occupation_code : String
  region_code : String
  gender : String
  measure_name : String
  value : Option Int
deriving DecidableEq

/-- Modelled from the spec: the Idempotent Store Writer's `upsert`
("insert or replace by `surrogate_key`") on a store of Tidy Fact Rows. -/
def upsertFacts (st rs : List TidyFactRow) : List TidyFactRow :=
  upsert TidyFactRow.surrogate_key st rs

/-! ### Multidimensional response decoder (spec sections 3, 4.3)

Modelled from the spec: the JSON-stat2 decoder is absent from the source
tree.  A raw cube separates dimension metadata (ordered category-code lists)
from a flat value vector; values are numbers or a non-numeric
suppression/not-applicable sentinel string. -/

/-- One dimension of a raw multidimensional response: its identifier and its
ordered list of category codes. -/
structure CubeDim where
  id : String
  categories : List String
deriving DecidableEq

/-- A raw value-vector entry: a number, or a sentinel string such as ".."
marking a suppressed / not-applicable cell. -/
inductive RawVal where
  | num (v : Int)
  | str (s : String)
deriving DecidableEq

/-- Modelled from the spec: the compact multidimensional interchange response:
dimension metadata plus a flat value vector in row-major order. -/
structure RawCube where
  dims : List CubeDim
  values : List RawVal

/-- Modelled from the spec: a numeric entry decodes to its value; a sentinel
string decodes to `null` (never `0`). -/
def decodeVal : RawVal → Option Int
  | .num v => some v
  | .str _ => none

/-- Mixed-radix decomposition of a linear index over the given cardinalities,
outermost dimension first (row-major order). -/
def mixedRadix : List Nat → Nat → List Nat
  | [], _ => []
  | c :: cs, i => (i / cs.prod) % c :: mixedRadix cs (i % cs.prod)

/-- Spec section 3: one value of a multidimensional response, with its
per-dimension category codes.  `value = none` models a suppressed or
not-applicable cell. -/
structure CubeCell where
  coordinates : List (String × String)
  value : Option Int
deriving DecidableEq

/-- Modelled from the spec: `decode(raw_response) -> sequence of Cube Cell`;
for each linear index the per-dimension category positions are recovered by
mixed-radix decomposition over the dimension cardinalities in category-list
order, and one Cube Cell is emitted per index. -/
def decode (cube : RawCube) : List CubeCell :=
  (List.range cube.values.length).map fun i =>
    { coordinates :=
        List.zipWith (fun (d : CubeDim) p => (d.id, d.categories.getD p ""))
          cube.dims (mixedRadix (cube.dims.map fun d => d.categories.length) i),
      value := decodeVal (cube.values.getD i (RawVal.str "..")) }

/-- The synthetic cube of spec section 8: dimensions
`{region: [A,B], gender: [men,women]}`, value vector `[100,200,300,400]`
row-major over region then gender. -/
def synthCube : RawCube :=
  { dims := [⟨"region", ["A", "B"]⟩, ⟨"gender", ["men", "women"]⟩],
    values := [.num 100, .num 200, .num 300, .num 400] }

/-- A one-dimensional cube whose second cell carries the suppression
sentinel `".."`. -/
def sentinelCube : RawCube :=
  { dims := [⟨"region", ["A", "B"]⟩],
    values := [.num 5, .str ".."] }

/-! ### Tidy transformer (spec section 4.6) -/

/-- The category code of a cell for a given dimension id (empty if absent). -/
def coordOf (c : CubeCell) (dim : String) : String :=
  match List.lookup dim c.coordinates with
  | some v => v
  | none => ""

/-- Modelled from the spec: the Tidy Transformer is absent from the source
tree.  One Cube Cell becomes one Tidy Fact Row: every dimension code is
resolved through the reconciler (`resolve`), the surrogate key is computed
over the ordered field tuple, and the value passes through unchanged. -/
def transformCell (resolve : String → String → String) (yearOf : String → Int)
    (c : CubeCell) : TidyFactRow :=
  let occ := resolve "occupation" (coordOf c "Yrke2012")
  let reg := resolve "region" (coordOf c "Region")
  let gen := resolve "gender" (coordOf c "Kon")
  let mea := resolve "measure" (coordOf c "ContentsCode")
  let yr := yearOf (coordOf c "Tid")
  { surrogate_key := surrogate_key yr occ reg gen mea,
    year := yr, occupation_code := occ, region_code := reg, gender := gen,
    measure_name := mea, value := c.value }

/-- Modelled from the spec: `transform(cube_cells, classification_lookup)`;
a row is discarded only when its measure is unrecognized. -/
def transform (resolve : String → String → String) (yearOf : String → Int)
    (measureKnown : String → Bool) (cells : List CubeCell) : List TidyFactRow :=
  (cells.filter (fun c => measureKnown (coordOf c "ContentsCode"))).map
    (transformCell resolve yearOf)

/-! ### Cube query builder (spec section 4.2) -/

/-- Modelled from the spec: a selection-query document, one filter per
dimension. -/
structure CubeQuery (α : Type) where
  occupation_codes : List α
  region_codes : List String
  gender_codes : List String
  years : List String
deriving DecidableEq

/-- Cell count of a query: the product of the cardinalities of its
per-dimension filters. -/
def cellCount {α : Type} (q : CubeQuery α) : Nat :=
  q.occupation_codes.length *
    (q.region_codes.length * (q.gender_codes.length * q.years.length))

/-- Chunk a list into groups of `b + 1` consecutive elements; `fuel` bounds
the recursion (any `fuel ≥ l.length` is exact). -/
def chunkGo (b : Nat) : Nat → List α → List (List α)
  | 0, _ => []
  | _ + 1, [] => []
  | fuel + 1, x :: xs => (x :: xs.take b) :: chunkGo b fuel (xs.drop b)

/-- Chunk a list into groups of `b + 1` consecutive elements. -/
def chunkList (l : List α) (b : Nat) : List (List α) :=
  chunkGo b l.length l

/-- Modelled from the spec: `build_queries(occupation_codes, region_codes,
gender_codes, years, max_cells)`.  The occupation-code list is partitioned
into batches small enough that each query's cell count stays within
`max_cells`, holding all other dimensions full-width.  When even a single
occupation code combined with the full region/gender/year cross-product
exceeds `max_cells`, the builder splits further along the year dimension
(one query per year, occupation codes re-chunked per year); `none` models
the fatal configuration error when not even that splitting can bring a
batch under the limit. -/
def build_queries (occ : List α) (regions genders years : List String)
    (max_cells : Nat) : Option (List (CubeQuery α)) :=
  let per := regions.length * (genders.length * years.length)
  let perYear := regions.length * genders.length
  if per ≠ 0 ∧ per ≤ max_cells then
    some ((chunkList occ (max_cells / per - 1)).map
      fun b => ⟨b, regions, genders, years⟩)
  else if perYear ≠ 0 ∧ perYear ≤ max_cells then
    some (years.flatMap fun y =>
      (chunkList occ (max_cells / perYear - 1)).map
        fun b => ⟨b, regions, genders, [y]⟩)
  else none

/-- The nine region codes of the chunking test (8 NUTS-2 regions plus the
national total). -/
def regions9 : List String :=
  ["SE11", "SE12", "SE21", "SE22", "SE23", "SE31", "SE32", "SE33", "SE0"]

/-- The two gender codes of the chunking test. -/
def genders2 : List String := ["1", "2"]

/-- The three years of the chunking test. -/
def years3 : List String := ["2022", "2023", "2024"]

/-! ### Job-ad ingestor (spec section 4.5) -/

/-- A job advertisement record, reduced to the fields the pagination and
deduplication logic inspects. -/
structure AdRecord where
  ad_id : Nat
  modified : Nat
deriving DecidableEq

/-- Modelled from the spec: within one fetch, records are deduplicated by
`ad_id`, keeping the one with the latest modification timestamp. -/
def dedupAds (rs : List AdRecord) : List AdRecord :=
  rs.foldl (fun acc r =>
    if acc.any (fun q => q.ad_id = r.ad_id) then
      acc.map (fun q =>
        if q.ad_id = r.ad_id then (if q.modified ≤ r.modified then r else q) else q)
    else acc ++ [r]) []

/-- Modelled from the spec: offset/limit pagination.  Each step requests the
page at `off` and advances the offset by `limit`; a page shorter than
`limit` is terminal; exhausting the page budget is a fatal error (`none`).
Returns the concatenated records and the number of requests performed. -/
def fetchPages (api : Nat → List AdRecord) (limit : Nat) :
    Nat → Nat → Option (List AdRecord × Nat)
  | 0, _ => none
  | fuel + 1, off =>
    let page := api off
    if page.length < limit then some (page, 1)
    else
      match fetchPages api limit fuel (off + limit) with
      | none => none
      | some (rest, n) => some (page ++ rest, n + 1)

/-- Modelled from the spec: `fetch_historical` paginates from offset 0 and
deduplicates the concatenated records by `ad_id`. -/
def fetch_historical (api : Nat → List AdRecord) (limit maxPages : Nat) :
    Option (List AdRecord × Nat) :=
  match fetchPages api limit maxPages 0 with
  | none => none
  | some (records, n) => some (dedupAds records, n)

/-- A mocked historical-ads source: three full pages of `limit = 2` records
at offsets 0, 2, 4, then a partial page. -/
def mockAdsApi : Nat → List AdRecord := fun off =>
  if off = 0 then [⟨1, 0⟩, ⟨2, 0⟩]
  else if off = 2 then [⟨3, 0⟩, ⟨1, 5⟩]
  else if off = 4 then [⟨4, 0⟩, ⟨5, 0⟩]
  else [⟨6, 0⟩]

/-! ### Rate-limited HTTP client (spec sections 4.1, 5)

Modelled from the spec: the rate limiter is absent from the source tree.  It
is modelled as a sliding-window gate processing the serialized sequence of
permit-acquisition attempts (the spec states the gate serializes permit
acquisition across all concurrent callers); times are in whole seconds. -/

/-- One gate decision: the attempt at time `t` is granted only when fewer
than `N` already-granted requests lie in the last `T` seconds. -/
def gateStep (N T : Nat) (acc : List Nat) (t : Nat) : List Nat :=
  if (acc.filter (fun s => t < s + T)).length < N then acc ++ [t] else acc

/-- Modelled from the spec: the sliding-window gate; returns the timestamps
of the granted requests. -/
def slidingGate (N T : Nat) (attempts : List Nat) : List Nat :=
  attempts.foldl (gateStep N T) []

/-- Number of granted requests in the half-open window `[w, w + T)`. -/
def windowCount (T : Nat) (granted : List Nat) (w : Nat) : Nat :=
  (granted.filter (fun s => w ≤ s ∧ s < w + T)).length

/-! ### Frontend: region crosswalk and map aggregation
(`frontend/src/components/Map/SwedenMap.jsx`) -/

/-- `REGION_NAME_MAP` of `SwedenMap.jsx`: API region names to NUTS-2 codes;
the national total is mapped to `null` (modelled `none`). -/
def REGION_NAME_MAP : List (String × Option String) :=
  [("Sweden", none),
   ("Stockholm", some "SE11"),
   ("East-Central Sweden", some "SE12"),
   ("Småland and islands", some "SE21"),
   ("South Sweden", some "SE22"),
   ("West Sweden", some "SE23"),
   ("North-Central Sweden", some "SE31"),
   ("Central Norrland", some "SE32"),
   ("Upper Norrland", some "SE33")]

/-- One row of the income data consumed by the map component. -/
structure MapDataRow where
  region : Option String
  monthly_salary : Option Int

/-- `REGION_NAME_MAP[region]` under JS truthiness: `none` for an absent
region, an absent crosswalk entry, or the explicit `null` entry. -/
def resolveRegionName (r : Option String) : Option String :=
  match r with
  | none => none
  | some s =>
    match List.lookup s REGION_NAME_MAP with
    | some c => c
    | none => none

/-- One iteration of the `data.forEach` loop in `getRegionIncomeMap`:
unmatched regions and falsy salaries are skipped; otherwise the maximum
salary per NUTS code is kept (JS `!regionIncome[nutsCode] ||
item.monthly_salary > regionIncome[nutsCode]`). -/
def mapStep (acc : List (String × Int)) (item : MapDataRow) : List (String × Int) :=
  match resolveRegionName item.region, item.monthly_salary with
  | some code, some sal =>
    if code = "" ∨ sal = 0 then acc
    else
      match List.lookup code acc with
      | none => acc ++ [(code, sal)]
      | some cur =>
        if cur = 0 ∨ cur < sal then
          acc.map (fun p => if p.1 = code then (code, sal) else p)
        else acc
  | _, _ => acc

/-- `getRegionIncomeMap` of `SwedenMap.jsx`: aggregates income by NUTS code
(an association list models the JS object, insertion-ordered). -/
def getRegionIncomeMap (data : List MapDataRow) : List (String × Int) :=
  data.foldl mapStep []

/-! ### Frontend: service layer (`frontend/src/services/api.js`)

Each data-fetching function is embedded with the HTTP request abstracted as
an oracle from path and query parameters to either a response payload or an
error; the `catch` branch of the JS source becomes the `.error` match arm. -/

/-- The `filters` argument of the service-layer functions. -/
structure ApiFilters where
  occupation : Option String
  region : Option String
  gender : Option String
  year : Option String

/-- `if (filters.x) params.x = filters.x`: the parameter is included only
when the field is present and truthy (non-empty). -/
def optParam (key : String) (v : Option String) : List (String × String) :=
  match v with
  | none => []
  | some s => if s = "" then [] else [(key, s)]

/-- Query parameters built by `fetchIncomeData`. -/
def incomeParams (f : ApiFilters) : List (String × String) :=
  optParam "occupation" f.occupation ++ optParam "region" f.region ++
    optParam "gender" f.gender ++ optParam "year" f.year

/-- Query parameters built by `fetchJobAds` (always sets `limit = 200`). -/
def jobsParams (f : ApiFilters) : List (String × String) :=
  optParam "occupation" f.occupation ++ optParam "region" f.region ++
    [("limit", "200")]

/-- Query parameters built by `fetchJobsAggregated`. -/
def jobsAggParams (f : ApiFilters) : List (String × String) :=
  optParam "occupation" f.occupation ++ optParam "region" f.region

/-- Query parameters built by `fetchIncomeDispersion`. -/
def dispersionParams (f : ApiFilters) : List (String × String) :=
  optParam "occupation" f.occupation ++ optParam "year" f.year ++
    optParam "gender" f.gender

/-- `fetchIncomeData` of `api.js`: returns the response data, or `[]` when
the request fails. -/
def fetchIncomeData {γ : Type}
    (http : String → List (String × String) → Except String (List γ))
    (f : ApiFilters) : List γ :=
  match http "/income" (incomeParams f) with
  | .ok d => d
  | .error _ => []

/-- `fetchJobAds` of `api.js`. -/
def fetchJobAds {γ : Type}
    (http : String → List (String × String) → Except String (List γ))
    (f : ApiFilters) : List γ :=
  match http "/jobs" (jobsParams f) with
  | .ok d => d
  | .error _ => []

/-- `fetchJobsAggregated` of `api.js`. -/
def fetchJobsAggregated {γ : Type}
    (http : String → List (String × String) → Except String (List γ))
    (f : ApiFilters) : List γ :=
  match http "/jobs/aggregated" (jobsAggParams f) with
  | .ok d => d
  | .error _ => []

/-- `fetchOccupations` of `api.js` (no query parameters). -/
def fetchOccupations {γ : Type}
    (http : String → List (String × String) → Except String (List γ)) : List γ :=
  match http "/occupations" [] with
  | .ok d => d
  | .error _ => []

/-- `fetchRegions` of `api.js` (no query parameters). -/
def fetchRegions {γ : Type}
    (http : String → List (String × String) → Except String (List γ)) : List γ :=
  match http "/regions" [] with
  | .ok d => d
  | .error _ => []

/-- `fetchIncomeDispersion` of `api.js`. -/
def fetchIncomeDispersion {γ : Type}
    (http : String → List (String × String) → Except String (List γ))
    (f : ApiFilters) : List γ :=
  match http "/income/dispersion" (dispersionParams f) with
  | .ok d => d
  | .error _ => []

/-- `fetchStats` of `api.js`: returns the response data, or `null` (`none`)
when the request fails. -/
def fetchStats {σ : Type}
    (http : String → List (String × String) → Except String σ) : Option σ :=
  match http "/stats" [] with
  | .ok d => some d
  | .error _ => none

/-! ### Frontend: income chart aggregation
(`frontend/src/components/Charts/IncomeChart.jsx`) -/

/-- One row of the income data consumed by `IncomeChart`. -/
structure ChartRow where
  occupation : Option String
  gender : Option String
  monthly_salary : Option Int

/-- JS `x || d` on an optional string: `null`/`undefined`/`""` fall back. -/
def jsOrString (v : Option String) (d : String) : String :=
  match v with
  | none => d
  | some s => if s = "" then d else s

/-- JS `x || 0` on an optional number: `null`/`undefined` (and `0`) give 0. -/
def jsOrZero (v : Option Int) : Int :=
  match v with
  | none => 0
  | some n => n

/-- The per-occupation accumulator of `IncomeChart` (JS
`{ occupation, men, women, menCount, womenCount }`). -/
structure AggEntry where
  occupation : String
  men : Int
  women : Int
  menCount : Nat
  womenCount : Nat
deriving DecidableEq

/-- The gender branch of the `data.forEach` body. -/
def updEntry (g : String) (sal : Int) (e : AggEntry) : AggEntry :=
  if g = "men" then { e with men := e.men + sal, menCount := e.menCount + 1 }
  else if g = "women" then
    { e with women := e.women + sal, womenCount := e.womenCount + 1 }
  else e

/-- One iteration of the `data.forEach` loop of `IncomeChart`: the entry for
the row's occupation is created if absent, then updated per gender. -/
def aggStep (acc : List AggEntry) (r : ChartRow) : List AggEntry :=
  let occ := jsOrString r.occupation "Unknown"
  let g := jsOrString r.gender "unknown"
  let sal := jsOrZero r.monthly_salary
  if acc.any (fun e => e.occupation = occ) then
    acc.map (fun e => if e.occupation = occ then updEntry g sal e else e)
  else acc ++ [updEntry g sal ⟨occ, 0, 0, 0, 0⟩]

/-- The `aggregated` object of `IncomeChart` (an insertion-ordered
association list models the JS object keyed by occupation). -/
def aggregateIncome (data : List ChartRow) : List AggEntry :=
  data.foldl aggStep []

/-- JS `Math.round(num / den)` for a positive integer denominator:
rounding half toward positive infinity. -/
def jsRound (num : Int) (den : Nat) : Int :=
  Int.fdiv (2 * num + den) (2 * den)

/-- The occupation-label truncation of `IncomeChart`
(`substring(0, 25) + '...'` for labels longer than 25). -/
def truncOcc (s : String) : String :=
  if 25 < s.length then String.mk (s.data.take 25) ++ "..." else s

/-- One bar-chart datum of `IncomeChart`. -/
structure ChartEntry where
  occupation : String
  men : Int
  women : Int
deriving DecidableEq

/-- The `chartData` mapping of `IncomeChart`: per-gender displayed average,
0 when that gender has no rows. -/
def chartEntryOf (e : AggEntry) : ChartEntry :=
  { occupation := truncOcc e.occupation,
    men := if 0 < e.menCount then jsRound e.men e.menCount else 0,
    women := if 0 < e.womenCount then jsRound e.women e.womenCount else 0 }

/-- `chartData` of `IncomeChart`. -/
def chartData (data : List ChartRow) : List ChartEntry :=
  (aggregateIncome data).map chartEntryOf

/-- The rows of `data` that the chart attributes to occupation `occ` and
gender `g` (after the JS `|| 'Unknown'` / `|| 'unknown'` defaults). -/
def genderRows (data : List ChartRow) (occ g : String) : List ChartRow :=
  data.filter (fun r =>
    jsOrString r.occupation "Unknown" = occ ∧ jsOrString r.gender "unknown" = g)

/-- Salary total of those rows under the JS `|| 0` coercion. -/
def genderSum (data : List ChartRow) (occ g : String) : Int :=
  ((genderRows data occ g).map (fun r => jsOrZero r.monthly_salary)).sum

/-- Row count of those rows (null-salary rows included). -/
def genderCount (data : List ChartRow) (occ g : String) : Nat :=
  (genderRows data occ g).length

/-- The claim's characterization of an aggregation entry: its per-gender
sums are the sums of the (null-coerced) salaries of that gender's rows and
its per-gender counts are those rows' counts. -/
def EntryOk (data : List ChartRow) (e : AggEntry) : Prop :=
  e.men = genderSum data e.occupation "men"
  ∧ e.menCount = genderCount data e.occupation "men"
  ∧ e.women = genderSum data e.occupation "women"
  ∧ e.womenCount = genderCount data e.occupation "women"

/-! ## Theorems

### Store-writer idempotence -/

section UpsertThms

variable {α κ : Type} [DecidableEq κ]

theorem lastWrite_cons (key : α → κ) (r : α) (rs : List α) (k : κ) :
    lastWrite key (r :: rs) k =
      match lastWrite key rs k with
      | some v => some v
      | none => if key r = k then some r else none := by
  unfold lastWrite
  rw [List.reverse_cons, List.find?_append]
  by_cases hk : key r = k <;>
    cases h : List.find? (fun r => decide (key r = k)) rs.reverse <;>
      simp [List.find?, Option.orElse, h, hk]

theorem substLast_nil (key : α → κ) (p : α) : substLast key [] p = p := rfl

theorem mem_upsertRow_self (key : α → κ) (st : List α) (r : α) :
    r ∈ upsertRow key st r := by
  unfold upsertRow
  by_cases h : st.any (fun p => key p = key r)
  · simp only [h, if_true]
    rcases List.any_eq_true.mp h with ⟨q, hq, hkq⟩
    refine List.mem_map.mpr ⟨q, hq, ?_⟩
    simp only [of_decide_eq_true hkq, if_true]
  · simp [h]

theorem exists_key_upsertRow (key : α → κ) (st : List α) (r : α) (k : κ)
    (h : ∃ p ∈ st, key p = k) : ∃ p ∈ upsertRow key st r, key p = k := by
  rcases h with ⟨p, hp, hk⟩
  unfold upsertRow
  by_cases hany : st.any (fun q => key q = key r)
  · simp only [hany, if_true]
    by_cases hpr : key p = key r
    · exact ⟨r, List.mem_map.mpr ⟨p, hp, by simp [hpr]⟩, by rw [← hpr, hk]⟩
    · exact ⟨p, List.mem_map.mpr ⟨p, hp, by simp [hpr]⟩, hk⟩
  · exact ⟨p, by simp [hany, hp], hk⟩

theorem exists_key_upsert (key : α → κ) (rs : List α) :
    ∀ st k, (∃ p ∈ st, key p = k) → ∃ p ∈ upsert key st rs, key p = k := by
  induction rs with
  | nil => intro st k h; exact h
  | cons r rs ih =>
    intro st k h
    exact ih (upsertRow key st r) k (exists_key_upsertRow key st r k h)

/-- Every key written by the batch is present in the store afterwards. -/
theorem covered_upsert (key : α → κ) (rs : List α) :
    ∀ st, ∀ r ∈ rs, ∃ p ∈ upsert key st rs, key p = key r := by
  induction rs with
  | nil => intro _ r hr; cases hr
  | cons r0 rs ih =>
    intro st r hr
    rcases List.mem_cons.mp hr with h | h
    · subst h
      exact exists_key_upsert key rs (upsertRow key st r) (key r)
        ⟨r, mem_upsertRow_self key st r, rfl⟩
    · exact ih (upsertRow key st r0) r h

/-- Rows whose key is never written by the batch come from the initial store. -/
theorem mem_of_mem_upsert_untouched (key : α → κ) (rs : List α) :
    ∀ st p, p ∈ upsert key st rs → (∀ r ∈ rs, key r ≠ key p) → p ∈ st := by
  induction rs with
  | nil => intro st p hp _; exact hp
  | cons r rs ih =>
    intro st p hp hk
    have hp' : p ∈ upsertRow key st r :=
      ih (upsertRow key st r) p hp (fun r' hr' => hk r' (List.mem_cons_of_mem _ hr'))
    have hkr : key r ≠ key p := hk r (List.mem_cons_self _ _)
    unfold upsertRow at hp'
    by_cases hany : st.any (fun q => key q = key r)
    · simp only [hany, if_true] at hp'
      rcases List.mem_map.mp hp' with ⟨q, hq, hqe⟩
      by_cases hqr : key q = key r
      · exfalso; apply hkr; rw [← hqe]; simp [hqr]
      · rw [if_neg hqr] at hqe; exact hqe ▸ hq
    · simp only [hany, if_false] at hp'
      rcases List.mem_append.mp hp' with h | h
      · exact h
      · exfalso; exact hkr (by simp at h; rw [h])

/-- If every key of the batch already occurs in the store, the batch only
replaces rows in place: the result is a pointwise substitution. -/
theorem upsert_eq_map_substLast (key : α → κ) (rs : List α) :
    ∀ st, (∀ r ∈ rs, ∃ p ∈ st, key p = key r) →
      upsert key st rs = st.map (substLast key rs) := by
  induction rs with
  | nil =>
    intro st _
    simp only [upsert, List.foldl_nil]
    rw [List.map_congr_left (fun p _ => substLast_nil key p)]
    simp
  | cons r rs ih =>
    intro st hcov
    have hr : ∃ p ∈ st, key p = key r := hcov r (List.mem_cons_self _ _)
    have hany : st.any (fun p => key p = key r) := by
      rcases hr with ⟨p, hp, hk⟩
      exact List.any_eq_true.mpr ⟨p, hp, by simp [hk]⟩
    have hstep : upsertRow key st r = st.map (fun p => if key p = key r then r else p) := by
      unfold upsertRow; rw [if_pos hany]
    have hcov' : ∀ r' ∈ rs, ∃ p ∈ upsertRow key st r, key p = key r' := by
      intro r' hr'
      exact exists_key_upsertRow key st r (key r')
        (hcov r' (List.mem_cons_of_mem _ hr'))
    have := ih (upsertRow key st r) hcov'
    calc upsert key st (r :: rs)
        = upsert key (upsertRow key st r) rs := rfl
      _ = (upsertRow key st r).map (substLast key rs) := this
      _ = (st.map (fun p => if key p = key r then r else p)).map (substLast key rs) := by
          rw [hstep]
      _ = st.map (substLast key (r :: rs)) := by
          rw [List.map_map]
          apply List.map_congr_left
          intro p _
          simp only [Function.comp]
          by_cases hpr : key p = key r
          · simp only [hpr, if_true]
            unfold substLast
            rw [lastWrite_cons]
            cases h : lastWrite key rs (key r) with
            | some v => simp [hpr, h]
            | none => simp [hpr, h]
          · simp only [hpr, if_false]
            unfold substLast
            rw [lastWrite_cons]
            cases h : lastWrite key rs (key p) with
            | some v => simp
            | none => rw [if_neg (fun hh => hpr hh.symm)]

/-- After a batch has been written, every stored row already holds the last
value the batch writes for its key. -/
theorem substLast_of_mem_upsert (key : α → κ) (rs : List α) :
    ∀ st p, p ∈ upsert key st rs → substLast key rs p = p := by
  induction rs with
  | nil => intro st p _; exact substLast_nil key p
  | cons r rs ih =>
    intro st p hp
    have hp1 : p ∈ upsert key (upsertRow key st r) rs := hp
    unfold substLast
    rw [lastWrite_cons]
    cases h : lastWrite key rs (key p) with
    | some v =>
      have := ih (upsertRow key st r) p hp1
      unfold substLast at this
      rw [h] at this
      simpa [h] using this
    | none =>
      by_cases hkr : key r = key p
      · -- `p`'s key is untouched by `rs`, so `p` survives from `upsertRow st r`,
        -- where every row with key `key r` is `r` itself.
        have hnone : ∀ r' ∈ rs, key r' ≠ key p := by
          intro r' hr'
          have := List.find?_eq_none.mp h
          have hmem : r' ∈ rs.reverse := List.mem_reverse.mpr hr'
          have := this r' hmem
          simpa using this
        have hp2 : p ∈ upsertRow key st r :=
          mem_of_mem_upsert_untouched key rs (upsertRow key st r) p hp1 hnone
        unfold upsertRow at hp2
        by_cases hany : st.any (fun q => key q = key r)
        · simp only [hany, if_true] at hp2
          rcases List.mem_map.mp hp2 with ⟨q, hq, hqe⟩
          by_cases hqr : key q = key r
          · rw [if_pos hqr] at hqe
            simp [hkr, ← hqe]
          · rw [if_neg hqr] at hqe
            exfalso; apply hqr; rw [hqe, hkr]
        · simp only [hany, if_false] at hp2
          rcases List.mem_append.mp hp2 with hmem | hmem
          · exfalso
            apply hany
            exact List.any_eq_true.mpr ⟨p, hmem, by simp [← hkr]⟩
          · simp at hmem
            simp [hkr, ← hmem]
      · simp [h, hkr]

/-- Re-running the same batch against the store it produced is a no-op. -/
theorem upsert_idem (key : α → κ) (st rs : List α) :
    upsert key (upsert key st rs) rs = upsert key st rs := by
  have hcov : ∀ r ∈ rs, ∃ p ∈ upsert key st rs, key p = key r :=
    covered_upsert key rs st
  rw [upsert_eq_map_substLast key rs (upsert key st rs) hcov]
  have : ∀ p ∈ upsert key st rs, substLast key rs p = p :=
    substLast_of_mem_upsert key rs st
  calc (upsert key st rs).map (substLast key rs)
      = (upsert key st rs).map id := List.map_congr_left (fun p hp => this p hp)
    _ = upsert key st rs := List.map_id _

end UpsertThms

/-- C1: Upsert idempotence — for every store state `st` and every finite
sequence of Tidy Fact Rows `rs`, upserting `rs` twice in succession produces
the same store contents (the very same row list, hence the same row count
and values) as upserting it once: rows keyed by the same `surrogate_key`
overwrite themselves rather than duplicate, so re-running the same
extraction with unchanged source data is a no-op in effect. -/
theorem upsertFacts_idempotent (st rs : List TidyFactRow) :
    upsertFacts (upsertFacts st rs) rs = upsertFacts st rs :=
  upsert_idem TidyFactRow.surrogate_key st rs

/-! ### Surrogate-key determinism and field sensitivity -/

theorem digitChar_injOn (d e : Nat) (hd : d < 10) (he : e < 10)
    (h : Nat.digitChar d = Nat.digitChar e) : d = e := by
  interval_cases d <;> interval_cases e <;> revert h <;> decide

theorem digitChar_ne_dash (d : Nat) (hd : d < 10) : Nat.digitChar d ≠ '-' := by
  interval_cases d <;> decide

theorem map_digitChar_inj : ∀ l1 l2 : List Nat, (∀ d ∈ l1, d < 10) →
    (∀ d ∈ l2, d < 10) → l1.map Nat.digitChar = l2.map Nat.digitChar → l1 = l2 := by
  intro l1
  induction l1 with
  | nil =>
    intro l2 _ _ h
    cases l2 with
    | nil => rfl
    | cons e l2 => simp at h
  | cons d l ih =>
    intro l2 h1 h2 h
    cases l2 with
    | nil => simp at h
    | cons e l2 =>
      simp only [List.map_cons, List.cons.injEq] at h
      have hde := digitChar_injOn d e (h1 d (List.mem_cons_self _ _))
        (h2 e (List.mem_cons_self _ _)) h.1
      have hrest := ih l2 (fun x hx => h1 x (List.mem_cons_of_mem _ hx))
        (fun x hx => h2 x (List.mem_cons_of_mem _ hx)) h.2
      rw [hde, hrest]

theorem natKeyChars_inj (n m : Nat) (h : natKeyChars n = natKeyChars m) : n = m := by
  have hd : Nat.digits 10 n = Nat.digits 10 m :=
    map_digitChar_inj _ _
      (fun d hdm => Nat.digits_lt_base (by norm_num) hdm)
      (fun d hdm => Nat.digits_lt_base (by norm_num) hdm) h
  have := congrArg (Nat.ofDigits 10) hd
  rwa [Nat.ofDigits_digits, Nat.ofDigits_digits] at this

theorem mem_natKeyChars_ne_dash (n : Nat) : ∀ c ∈ natKeyChars n, c ≠ '-' := by
  intro c hc
  rcases List.mem_map.mp hc with ⟨d, hd, rfl⟩
  exact digitChar_ne_dash d (Nat.digits_lt_base (by norm_num) hd)

theorem intKeyChars_inj (y y' : Int) (h : intKeyChars y = intKeyChars y') :
    y = y' := by
  unfold intKeyChars at h
  by_cases h1 : y < 0 <;> by_cases h2 : y' < 0
  · rw [if_pos h1, if_pos h2] at h
    have h' : natKeyChars (-y).toNat = natKeyChars (-y').toNat := by
      injection h
    have := natKeyChars_inj _ _ h'
    omega
  · rw [if_pos h1, if_neg h2] at h
    exact absurd (h ▸ List.mem_cons_self '-' _)
      (fun hm => mem_natKeyChars_ne_dash _ '-' hm rfl)
  · rw [if_neg h1, if_pos h2] at h
    exact absurd (h.symm ▸ List.mem_cons_self '-' _)
      (fun hm => mem_natKeyChars_ne_dash _ '-' hm rfl)
  · rw [if_neg h1, if_neg h2] at h
    have := natKeyChars_inj _ _ h
    omega

/-- C2: Surrogate-key determinism and field sensitivity — `surrogate_key` is
a pure function of the ordered tuple `(year, occupation_code, region_code,
gender, measure_name)`: computing it twice on the identical tuple (in
particular on the spec's example tuple) yields the identical key, and for
every tuple, changing exactly one of the five fields yields a different
key. -/
theorem surrogate_key_deterministic_and_sensitive :
    (surrogate_key 2024 "2512" "SE11" "men" "avg_salary" =
       surrogate_key 2024 "2512" "SE11" "men" "avg_salary")
    ∧ (∀ y y' o r g m, y ≠ y' →
        surrogate_key y o r g m ≠ surrogate_key y' o r g m)
    ∧ (∀ y o o' r g m, o ≠ o' →
        surrogate_key y o r g m ≠ surrogate_key y o' r g m)
    ∧ (∀ y o r r' g m, r ≠ r' →
        surrogate_key y o r g m ≠ surrogate_key y o r' g m)
    ∧ (∀ y o r g g' m, g ≠ g' →
        surrogate_key y o r g m ≠ surrogate_key y o r g' m)
    ∧ (∀ y o r g m m', m ≠ m' →
        surrogate_key y o r g m ≠ surrogate_key y o r g m') := by
  refine ⟨rfl, ?_, ?_, ?_, ?_, ?_⟩
  · intro y y' o r g m hne h
    have hd : intKeyChars y ++
        '|' :: (o.data ++ '|' :: (r.data ++ '|' :: (g.data ++ '|' :: m.data))) =
        intKeyChars y' ++
        '|' :: (o.data ++ '|' :: (r.data ++ '|' :: (g.data ++ '|' :: m.data))) :=
      congrArg String.data h
    exact hne (intKeyChars_inj _ _ (List.append_cancel_right hd))
  · intro y o o' r g m hne h
    have hd : intKeyChars y ++
        '|' :: (o.data ++ '|' :: (r.data ++ '|' :: (g.data ++ '|' :: m.data))) =
        intKeyChars y ++
        '|' :: (o'.data ++ '|' :: (r.data ++ '|' :: (g.data ++ '|' :: m.data))) :=
      congrArg String.data h
    have h1 := List.append_cancel_left hd
    injection h1 with _ h2
    exact hne (String.ext (List.append_cancel_right h2))
  · intro y o r r' g m hne h
    have hd : intKeyChars y ++
        '|' :: (o.data ++ '|' :: (r.data ++ '|' :: (g.data ++ '|' :: m.data))) =
        intKeyChars y ++
        '|' :: (o.data ++ '|' :: (r'.data ++ '|' :: (g.data ++ '|' :: m.data))) :=
      congrArg String.data h
    have h1 := List.append_cancel_left hd
    injection h1 with _ h2
    have h3 := List.append_cancel_left h2
    injection h3 with _ h4
    exact hne (String.ext (List.append_cancel_right h4))
  · intro y o r g g' m hne h
    have hd : intKeyChars y ++
        '|' :: (o.data ++ '|' :: (r.data ++ '|' :: (g.data ++ '|' :: m.data))) =
        intKeyChars y ++
        '|' :: (o.data ++ '|' :: (r.data ++ '|' :: (g'.data ++ '|' :: m.data))) :=
      congrArg String.data h
    have h1 := List.append_cancel_left hd
    injection h1 with _ h2
    have h3 := List.append_cancel_left h2
    injection h3 with _ h4
    have h5 := List.append_cancel_left h4
    injection h5 with _ h6
    exact hne (String.ext (List.append_cancel_right h6))
  · intro y o r g m m' hne h
    have hd : intKeyChars y ++
        '|' :: (o.data ++ '|' :: (r.data ++ '|' :: (g.data ++ '|' :: m.data))) =
        intKeyChars y ++
        '|' :: (o.data ++ '|' :: (r.data ++ '|' :: (g.data ++ '|' :: m'.data))) :=
      congrArg String.data h
    have h1 := List.append_cancel_left hd
    injection h1 with _ h2
    have h3 := List.append_cancel_left h2
    injection h3 with _ h4
    have h5 := List.append_cancel_left h4
    injection h5 with _ h6
    have h7 := List.append_cancel_left h6
    injection h7 with _ h8
    exact hne (String.ext h8)

/-- Witness for C2 at the spec's concrete tuple: changing each of the five
fields in turn changes the key. -/
theorem surrogate_key_sensitivity_witness :
    (surrogate_key 2024 "2512" "SE11" "men" "avg_salary" ≠
       surrogate_key 2025 "2512" "SE11" "men" "avg_salary")
    ∧ (surrogate_key 2024 "2512" "SE11" "men" "avg_salary" ≠
       surrogate_key 2024 "2513" "SE11" "men" "avg_salary")
    ∧ (surrogate_key 2024 "2512" "SE11" "men" "avg_salary" ≠
       surrogate_key 2024 "2512" "SE12" "men" "avg_salary")
    ∧ (surrogate_key 2024 "2512" "SE11" "men" "avg_salary" ≠
       surrogate_key 2024 "2512" "SE11" "women" "avg_salary")
    ∧ (surrogate_key 2024 "2512" "SE11" "men" "avg_salary" ≠
       surrogate_key 2024 "2512" "SE11" "men" "median_salary") :=
  ⟨surrogate_key_deterministic_and_sensitive.2.1 2024 2025 "2512" "SE11" "men"
      "avg_salary" (by decide),
   surrogate_key_deterministic_and_sensitive.2.2.1 2024 "2512" "2513" "SE11"
      "men" "avg_salary" (by decide),
   surrogate_key_deterministic_and_sensitive.2.2.2.1 2024 "2512" "SE11" "SE12"
      "men" "avg_salary" (by decide),
   surrogate_key_deterministic_and_sensitive.2.2.2.2.1 2024 "2512" "SE11"
      "men" "women" "avg_salary" (by decide),
   surrogate_key_deterministic_and_sensitive.2.2.2.2.2 2024 "2512" "SE11"
      "men" "avg_salary" "median_salary" (by decide)⟩

/-! ### Cube decoding -/

/-- C3: Cube decode round-trip — `decode` emits one Cube Cell per linear
index of the value vector, recovering the per-dimension category positions
by mixed-radix decomposition in category-list order; on the synthetic cube
with dimensions `{region: [A,B], gender: [men,women]}` and value vector
`[100, 200, 300, 400]` (row-major, region outer, gender inner) it yields
exactly the 4 cells `(A,men)->100, (A,women)->200, (B,men)->300,
(B,women)->400`. -/
theorem cube_decode_round_trip :
    (decode synthCube =
      [{ coordinates := [("region", "A"), ("gender", "men")], value := some 100 },
       { coordinates := [("region", "A"), ("gender", "women")], value := some 200 },
       { coordinates := [("region", "B"), ("gender", "men")], value := some 300 },
       { coordinates := [("region", "B"), ("gender", "women")], value := some 400 }])
    ∧ (∀ cube : RawCube, (decode cube).length = cube.values.length) := by
  constructor
  · decide
  · intro cube
    simp [decode]

/-- C4: Missing-value preservation — a value-vector entry holding the
suppression / not-applicable sentinel (a string marker) decodes to a cell
with `value = none` (never `some 0`), and `transform` passes cell values
through unchanged (no imputation or defaulting), so the null stays distinct
from zero in the Tidy Fact Row. -/
theorem missing_value_preserved :
    (∀ (cube : RawCube) (i : Nat) (s : String),
        cube.values[i]? = some (RawVal.str s) →
        ∃ cell : CubeCell, (decode cube)[i]? = some cell
          ∧ cell.value = none ∧ cell.value ≠ some 0)
    ∧ (∀ (resolve : String → String → String) (yearOf : String → Int)
        (c : CubeCell), (transformCell resolve yearOf c).value = c.value)
    ∧ (∀ (resolve : String → String → String) (yearOf : String → Int)
        (measureKnown : String → Bool) (cells : List CubeCell),
        (transform resolve yearOf measureKnown cells).map TidyFactRow.value =
          (cells.filter fun c => measureKnown (coordOf c "ContentsCode")).map
            CubeCell.value) := by
  refine ⟨?_, fun _ _ _ => rfl, ?_⟩
  · intro cube i s h
    have hi : i < cube.values.length := by
      by_contra hle
      push_neg at hle
      rw [List.getElem?_eq_none hle] at h
      exact absurd h (by simp)
    refine ⟨CubeCell.mk
      (List.zipWith (fun (d : CubeDim) p => (d.id, d.categories.getD p ""))
        cube.dims (mixedRadix (cube.dims.map fun d => d.categories.length) i))
      (decodeVal (cube.values.getD i (RawVal.str ".."))), ?_, ?_, ?_⟩
    · unfold decode
      rw [List.getElem?_map, List.getElem?_range hi]
      rfl
    · show decodeVal (cube.values.getD i (RawVal.str "..")) = none
      rw [List.getD_eq_getElem?_getD, h]
      rfl
    · show decodeVal (cube.values.getD i (RawVal.str "..")) ≠ some 0
      rw [List.getD_eq_getElem?_getD, h]
      simp [decodeVal]
  · intro resolve yearOf measureKnown cells
    simp [transform, transformCell, List.map_map, Function.comp]

/-- Witness for C4: in `sentinelCube` the sentinel at index 1 decodes to a
null cell, and a transformed cell keeps its null value. -/
theorem missing_value_preserved_witness :
    (∃ cell : CubeCell, (decode sentinelCube)[1]? = some cell
       ∧ cell.value = none ∧ cell.value ≠ some 0)
    ∧ (transformCell (fun _ c => c) (fun _ => 0)
        { coordinates := [("region", "A")], value := none }).value = none :=
  ⟨missing_value_preserved.1 sentinelCube 1 ".." (by decide),
   missing_value_preserved.2.1 (fun _ c => c) (fun _ => 0)
     { coordinates := [("region", "A")], value := none }⟩

/-! ### Query-builder chunking -/

theorem chunkGo_flatten {α : Type} (b : Nat) :
    ∀ (fuel : Nat) (l : List α), l.length ≤ fuel → (chunkGo b fuel l).flatten = l := by
  intro fuel
  induction fuel with
  | zero =>
    intro l hl
    have : l = [] := List.length_eq_zero.mp (Nat.le_zero.mp hl)
    subst this; rfl
  | succ fuel ih =>
    intro l hl
    cases l with
    | nil => rfl
    | cons x xs =>
      have hxs : xs.length ≤ fuel := by
        simp only [List.length_cons] at hl
        omega
      have hlen : (xs.drop b).length ≤ fuel := by
        rw [List.length_drop]
        omega
      show ((x :: xs.take b) :: chunkGo b fuel (xs.drop b)).flatten = x :: xs
      rw [List.flatten_cons, ih _ hlen, List.cons_append, List.take_append_drop]

theorem chunkGo_size {α : Type} (b : Nat) :
    ∀ (fuel : Nat) (l : List α), ∀ c ∈ chunkGo b fuel l, c.length ≤ b + 1 := by
  intro fuel
  induction fuel with
  | zero => intro l c hc; simp [chunkGo] at hc
  | succ fuel ih =>
    intro l c hc
    cases l with
    | nil => simp [chunkGo] at hc
    | cons x xs =>
      simp only [chunkGo] at hc
      rcases List.mem_cons.mp hc with h | h
      · subst h
        simp only [List.length_cons, List.length_take]
        omega
      · exact ih _ c h

theorem flatten_year_chunks {α : Type} (occ : List α) (b : Nat)
    (regions genders : List String) :
    ∀ ys : List String,
      ((ys.flatMap fun y => (chunkList occ b).map
          fun c => (⟨c, regions, genders, [y]⟩ : CubeQuery α)).map
        CubeQuery.occupation_codes).flatten = (ys.map fun _ => occ).flatten := by
  intro ys
  induction ys with
  | nil => rfl
  | cons y ys ih =>
    rw [List.flatMap_cons, List.map_append, List.flatten_append, ih]
    rw [List.map_cons, List.flatten_cons]
    congr 1
    rw [List.map_map]
    have : (CubeQuery.occupation_codes ∘ fun c : List α =>
        (⟨c, regions, genders, [y]⟩ : CubeQuery α)) = id := rfl
    rw [this, List.map_id]
    exact chunkGo_flatten b occ.length occ le_rfl

/-- C5 counterexample: with one occupation code, 1 region, 2 genders,
2 years and `max_cells = 3`, the full-year cross-product for even a single
occupation code (4 cells) exceeds the limit, so the builder splits along
the year dimension as spec section 4.2 directs — and then the occupation
code `"2512"` appears in both year-split batches, so the emitted batches'
occupation codes do not equal the input list with each code exactly
once. -/
theorem build_queries_not_exact_partition :
    build_queries ["2512"] ["SE11"] ["1", "2"] ["2022", "2023"] 3 =
      some [⟨["2512"], ["SE11"], ["1", "2"], ["2022"]⟩,
            ⟨["2512"], ["SE11"], ["1", "2"], ["2023"]⟩]
    ∧ (([⟨["2512"], ["SE11"], ["1", "2"], ["2022"]⟩,
         ⟨["2512"], ["SE11"], ["1", "2"], ["2023"]⟩] : List (CubeQuery String)).map
        CubeQuery.occupation_codes).flatten = ["2512", "2512"]
    ∧ (["2512", "2512"] : List String) ≠ ["2512"] := by
  decide

/-- C5 (amended): Chunking correctness — whenever `build_queries` emits a
batch list, every emitted query's cell count (product of its per-dimension
filter cardinalities) is at most `max_cells`.  When the full
region/gender/year cross-product for a single occupation code fits within
`max_cells` (the occupation-chunking path), the concatenated occupation
codes of the batches are exactly the input occupation-code list, each code
exactly once.  When it does not fit, the builder splits along the year
dimension and each occupation code then appears exactly once per emitted
year (the concatenated codes are one copy of the input list per year).
For 120 occupation codes, 9 regions, 2 genders, 3 years and
`max_cells = 1000` at least 7 batches are emitted. -/
theorem build_queries_chunking :
    (∀ (α : Type) (occ : List α) (regions genders years : List String)
        (max_cells : Nat) (qs : List (CubeQuery α)),
        build_queries occ regions genders years max_cells = some qs →
        ∀ q ∈ qs, cellCount q ≤ max_cells)
    ∧ (∀ (α : Type) (occ : List α) (regions genders years : List String)
        (max_cells : Nat) (qs : List (CubeQuery α)),
        regions.length * (genders.length * years.length) ≠ 0 →
        regions.length * (genders.length * years.length) ≤ max_cells →
        build_queries occ regions genders years max_cells = some qs →
        (qs.map CubeQuery.occupation_codes).flatten = occ)
    ∧ (∀ (α : Type) (occ : List α) (regions genders years : List String)
        (max_cells : Nat) (qs : List (CubeQuery α)),
        max_cells < regions.length * (genders.length * years.length) →
        build_queries occ regions genders years max_cells = some qs →
        (qs.map CubeQuery.occupation_codes).flatten =
          (years.map fun _ => occ).flatten)
    ∧ (∃ qs : List (CubeQuery Nat),
        build_queries (List.range 120) regions9 genders2 years3 1000 = some qs
        ∧ 7 ≤ qs.length) := by
  refine ⟨?_, ?_, ?_, ?_⟩
  · intro A occ regions genders years max_cells qs h
    simp only [build_queries] at h
    set per := regions.length * (genders.length * years.length) with hper
    set perYear := regions.length * genders.length with hperY
    by_cases hg1 : per ≠ 0 ∧ per ≤ max_cells
    · rw [if_pos hg1] at h
      obtain ⟨h0, h1⟩ := hg1
      have hpos : 0 < per := Nat.pos_of_ne_zero h0
      have hdiv : 1 ≤ max_cells / per := (Nat.one_le_div_iff hpos).mpr h1
      injection h with h
      subst h
      intro q hq
      rcases List.mem_map.mp hq with ⟨c, hc, rfl⟩
      have hc' : c.length ≤ max_cells / per - 1 + 1 :=
        chunkGo_size (max_cells / per - 1) occ.length occ c hc
      have hb : max_cells / per - 1 + 1 = max_cells / per := by omega
      rw [hb] at hc'
      show c.length * per ≤ max_cells
      calc c.length * per ≤ max_cells / per * per :=
            Nat.mul_le_mul_right per hc'
        _ ≤ max_cells := Nat.div_mul_le_self max_cells per
    · rw [if_neg hg1] at h
      by_cases hg2 : perYear ≠ 0 ∧ perYear ≤ max_cells
      · rw [if_pos hg2] at h
        obtain ⟨h0, h1⟩ := hg2
        have hpos : 0 < perYear := Nat.pos_of_ne_zero h0
        have hdiv : 1 ≤ max_cells / perYear := (Nat.one_le_div_iff hpos).mpr h1
        injection h with h
        subst h
        intro q hq
        rcases List.mem_flatMap.mp hq with ⟨y, hy, hq'⟩
        rcases List.mem_map.mp hq' with ⟨c, hc, rfl⟩
        have hc' : c.length ≤ max_cells / perYear - 1 + 1 :=
          chunkGo_size (max_cells / perYear - 1) occ.length occ c hc
        have hb : max_cells / perYear - 1 + 1 = max_cells / perYear := by omega
        rw [hb] at hc'
        show c.length * (regions.length * (genders.length * 1)) ≤ max_cells
        rw [Nat.mul_one]
        calc c.length * perYear ≤ max_cells / perYear * perYear :=
              Nat.mul_le_mul_right perYear hc'
          _ ≤ max_cells := Nat.div_mul_le_self max_cells perYear
      · rw [if_neg hg2] at h
        exact absurd h (by simp)
  · intro A occ regions genders years max_cells qs h0 h1 h
    simp only [build_queries] at h
    rw [if_pos ⟨h0, h1⟩] at h
    injection h with h
    subst h
    rw [List.map_map]
    have : (CubeQuery.occupation_codes ∘
        fun (b : List A) =>
          (⟨b, regions, genders, years⟩ : CubeQuery A)) = id := rfl
    rw [this, List.map_id]
    exact chunkGo_flatten _ occ.length occ le_rfl
  · intro A occ regions genders years max_cells qs hlt h
    simp only [build_queries] at h
    have hg1 : ¬(regions.length * (genders.length * years.length) ≠ 0 ∧
        regions.length * (genders.length * years.length) ≤ max_cells) :=
      fun hc => absurd hc.2 (Nat.not_le.mpr hlt)
    rw [if_neg hg1] at h
    by_cases hg2 : regions.length * genders.length ≠ 0 ∧
        regions.length * genders.length ≤ max_cells
    · rw [if_pos hg2] at h
      injection h with h
      subst h
      exact flatten_year_chunks occ _ regions genders years
    · rw [if_neg hg2] at h
      exact absurd h (by simp)
  · exact ⟨_, rfl, by decide⟩

/-- Witness for the amended C5: the 120-occupation / 9-region / 2-gender /
3-year / 1000-cell instance has every batch within the limit and covers
each code exactly once (the occupation-chunking path), and the year-split
instance of the counterexample covers its occupation code exactly once per
emitted year. -/
theorem build_queries_chunking_witness :
    (∀ q ∈ (chunkList (List.range 120) 17).map
        (fun b => (⟨b, regions9, genders2, years3⟩ : CubeQuery Nat)),
        cellCount q ≤ 1000)
    ∧ (((chunkList (List.range 120) 17).map
        (fun b => (⟨b, regions9, genders2, years3⟩ : CubeQuery Nat))).map
          CubeQuery.occupation_codes).flatten = List.range 120
    ∧ (([⟨["2512"], ["SE11"], ["1", "2"], ["2022"]⟩,
         ⟨["2512"], ["SE11"], ["1", "2"], ["2023"]⟩] : List (CubeQuery String)).map
        CubeQuery.occupation_codes).flatten =
      ((["2022", "2023"] : List String).map fun _ => ["2512"]).flatten :=
  ⟨build_queries_chunking.1 Nat (List.range 120) regions9 genders2 years3 1000
     ((chunkList (List.range 120) 17).map
       (fun b => (⟨b, regions9, genders2, years3⟩ : CubeQuery Nat)))
     (by decide),
   build_queries_chunking.2.1 Nat (List.range 120) regions9 genders2 years3 1000
     ((chunkList (List.range 120) 17).map
       (fun b => (⟨b, regions9, genders2, years3⟩ : CubeQuery Nat)))
     (by decide) (by decide) (by decide),
   build_queries_chunking.2.2.1 String ["2512"] ["SE11"] ["1", "2"]
     ["2022", "2023"] 3
     [⟨["2512"], ["SE11"], ["1", "2"], ["2022"]⟩,
      ⟨["2512"], ["SE11"], ["1", "2"], ["2023"]⟩]
     (by decide) (by decide)⟩

/-! ### Pagination termination -/

/-- C6: Pagination termination — `fetch_historical` advances the offset by
`limit` per request and stops at the first page shorter than `limit`
(hitting the page budget instead is the fatal `none`); against a source
yielding 3 full pages followed by a partial page it performs exactly 4
requests and returns the concatenation of all returned records
deduplicated by `ad_id`. -/
theorem pagination_termination (api : Nat → List AdRecord)
    (limit maxPages : Nat)
    (h0 : (api 0).length = limit)
    (h1 : (api limit).length = limit)
    (h2 : (api (limit + limit)).length = limit)
    (h3 : (api (limit + limit + limit)).length < limit)
    (hm : 4 ≤ maxPages) :
    fetch_historical api limit maxPages =
      some (dedupAds (api 0 ++ (api limit ++
        (api (limit + limit) ++ api (limit + limit + limit)))), 4) := by
  obtain ⟨m, rfl⟩ : ∃ m, maxPages = m + 4 := ⟨maxPages - 4, by omega⟩
  have hfuel : m + 4 = m + 1 + 1 + 1 + 1 := by omega
  unfold fetch_historical
  rw [hfuel]
  simp only [fetchPages, Nat.zero_add]
  rw [h0, h1, h2]
  rw [if_neg (lt_irrefl limit), if_neg (lt_irrefl limit),
    if_neg (lt_irrefl limit), if_pos h3]

/-- Witness for C6: the mocked source with 3 full pages of 2 records and a
1-record partial page makes exactly 4 requests. -/
theorem pagination_termination_witness :
    fetch_historical mockAdsApi 2 10 =
      some (dedupAds (mockAdsApi 0 ++ (mockAdsApi 2 ++
        (mockAdsApi (2 + 2) ++ mockAdsApi (2 + 2 + 2)))), 4) :=
  pagination_termination mockAdsApi 2 10 (by decide) (by decide) (by decide)
    (by decide) (by decide)

/-! ### Rate-limit window bound -/

theorem length_filter_le_of_imp {α : Type} (l : List α) (p q : α → Bool)
    (h : ∀ a ∈ l, p a = true → q a = true) :
    (l.filter p).length ≤ (l.filter q).length := by
  induction l with
  | nil => simp
  | cons x xs ih =>
    have ih' := ih (fun a ha => h a (List.mem_cons_of_mem _ ha))
    by_cases hp : p x = true
    · have hq := h x (List.mem_cons_self _ _) hp
      simp only [List.filter_cons, hp, hq, if_true, List.length_cons]
      omega
    · by_cases hq : q x = true <;>
        simp only [List.filter_cons, hp, hq, if_true, if_false,
          List.length_cons, Bool.false_eq_true] <;>
        omega

theorem slidingGate_aux (N T : Nat) :
    ∀ (attempts acc : List Nat),
      (∀ w, (acc.filter (fun s => w ≤ s ∧ s < w + T)).length ≤ N) →
      ∀ w, ((attempts.foldl (gateStep N T) acc).filter
          (fun s => w ≤ s ∧ s < w + T)).length ≤ N := by
  intro attempts
  induction attempts with
  | nil => intro acc hacc w; exact hacc w
  | cons t ts ih =>
    intro acc hacc w
    refine ih (gateStep N T acc t) ?_ w
    intro w'
    unfold gateStep
    by_cases hgrant : (acc.filter (fun s => t < s + T)).length < N
    · rw [if_pos hgrant, List.filter_append]
      by_cases hw : w' ≤ t ∧ t < w' + T
      · have hsingle : [t].filter (fun s => w' ≤ s ∧ s < w' + T) = [t] := by
          simp [List.filter, hw.1, hw.2]
        have hmono : (acc.filter (fun s => w' ≤ s ∧ s < w' + T)).length ≤
            (acc.filter (fun s => t < s + T)).length := by
          apply length_filter_le_of_imp
          intro a _ ha
          simp only [decide_eq_true_eq] at ha ⊢
          omega
        rw [hsingle, List.length_append]
        simp only [List.length_singleton]
        omega
      · have hsingle : [t].filter (fun s => w' ≤ s ∧ s < w' + T) = [] := by
          simp only [List.filter]
          rw [decide_eq_false hw]
        rw [hsingle, List.append_nil]
        exact hacc w'
    · rw [if_neg hgrant]
      exact hacc w'

/-- C8: Rate ceiling — for every serialized sequence of permit-acquisition
attempts, the requests granted by the sliding-window gate never number more
than `N` in any window of `T` seconds; in particular at most 30 in any
10-second window (the statistics agency's limit) and at most 3 in any
1-second window (the conservative throttle). -/
theorem rate_ceiling_window_bound :
    (∀ (N T : Nat) (attempts : List Nat) (w : Nat),
        windowCount T (slidingGate N T attempts) w ≤ N)
    ∧ (∀ (attempts : List Nat) (w : Nat),
        windowCount 10 (slidingGate 30 10 attempts) w ≤ 30)
    ∧ (∀ (attempts : List Nat) (w : Nat),
        windowCount 1 (slidingGate 3 1 attempts) w ≤ 3) := by
  have main : ∀ N T attempts w, windowCount T (slidingGate N T attempts) w ≤ N := by
    intro N T attempts w
    unfold windowCount slidingGate
    exact slidingGate_aux N T attempts [] (fun w' => by simp) w
  exact ⟨main, fun a w => main 30 10 a w, fun a w => main 3 1 a w⟩

/-! ### Region crosswalk (frontend) -/

/-- C7 counterexample: in the source, the crosswalk maps the national total
`"Sweden"` to `null` (not to a canonical code), and `getRegionIncomeMap`
silently skips a region with no crosswalk match (and the national total) at
runtime — it returns an empty aggregate instead of failing. -/
theorem region_crosswalk_claim_false :
    List.lookup "Sweden" REGION_NAME_MAP = some none
    ∧ getRegionIncomeMap [⟨some "Gotland", some 50000⟩] = []
    ∧ getRegionIncomeMap [⟨some "Sweden", some 50000⟩] = [] := by
  decide

/-- C7 (amended): the crosswalk restricted to the 8 NUTS-2 region names is a
total bijection onto the 8 distinct codes SE11–SE33 (names are pairwise
distinct, the 8 non-null codes are exactly SE11–SE33 and pairwise
distinct); the national total `"Sweden"` is mapped to `null`; and a row
whose region resolves to no code is skipped by `getRegionIncomeMap` at
runtime (the aggregation step leaves the accumulator unchanged), not
treated as a fatal configuration error. -/
theorem region_crosswalk_amended :
    ((REGION_NAME_MAP.map Prod.fst).Nodup
      ∧ REGION_NAME_MAP.filterMap Prod.snd =
          ["SE11", "SE12", "SE21", "SE22", "SE23", "SE31", "SE32", "SE33"]
      ∧ (REGION_NAME_MAP.filterMap Prod.snd).Nodup
      ∧ List.lookup "Sweden" REGION_NAME_MAP = some none)
    ∧ (∀ (item : MapDataRow) (acc : List (String × Int)),
        resolveRegionName item.region = none → mapStep acc item = acc) := by
  constructor
  · exact ⟨by decide, by decide, by decide, by decide⟩
  · intro item acc h
    obtain ⟨reg, sal⟩ := item
    simp only at h
    cases sal <;> simp [mapStep, h]

/-- Witness for the amended C7: a row for the unmatched region `"Gotland"`
leaves the aggregation accumulator unchanged. -/
theorem region_crosswalk_amended_witness :
    mapStep [("SE11", 1)] ⟨some "Gotland", some 50000⟩ = [("SE11", 1)] :=
  region_crosswalk_amended.2 ⟨some "Gotland", some 50000⟩ [("SE11", 1)] (by decide)

/-! ### Frontend service layer -/

/-- C9: API-service error absorption — for every filters argument, each
data-fetching function of the service layer returns the empty list whenever
the underlying HTTP request fails (`fetchStats` returns `null`); the failed
request never propagates an exception (the embeddings are total). -/
theorem api_error_absorption :
    (∀ (γ : Type) (http : String → List (String × String) → Except String (List γ))
        (f : ApiFilters) (e : String),
        http "/income" (incomeParams f) = Except.error e →
        fetchIncomeData http f = [])
    ∧ (∀ (γ : Type) (http : String → List (String × String) → Except String (List γ))
        (f : ApiFilters) (e : String),
        http "/jobs" (jobsParams f) = Except.error e →
        fetchJobAds http f = [])
    ∧ (∀ (γ : Type) (http : String → List (String × String) → Except String (List γ))
        (f : ApiFilters) (e : String),
        http "/jobs/aggregated" (jobsAggParams f) = Except.error e →
        fetchJobsAggregated http f = [])
    ∧ (∀ (γ : Type) (http : String → List (String × String) → Except String (List γ))
        (e : String),
        http "/occupations" [] = Except.error e →
        fetchOccupations http = [])
    ∧ (∀ (γ : Type) (http : String → List (String × String) → Except String (List γ))
        (e : String),
        http "/regions" [] = Except.error e →
        fetchRegions http = [])
    ∧ (∀ (γ : Type) (http : String → List (String × String) → Except String (List γ))
        (f : ApiFilters) (e : String),
        http "/income/dispersion" (dispersionParams f) = Except.error e →
        fetchIncomeDispersion http f = [])
    ∧ (∀ (σ : Type) (http : String → List (String × String) → Except String σ)
        (e : String),
        http "/stats" [] = Except.error e →
        fetchStats http = none) := by
  refine ⟨?_, ?_, ?_, ?_, ?_, ?_, ?_⟩
  · intro γ http f e h
    unfold fetchIncomeData
    rw [h]
  · intro γ http f e h
    unfold fetchJobAds
    rw [h]
  · intro γ http f e h
    unfold fetchJobsAggregated
    rw [h]
  · intro γ http e h
    unfold fetchOccupations
    rw [h]
  · intro γ http e h
    unfold fetchRegions
    rw [h]
  · intro γ http f e h
    unfold fetchIncomeDispersion
    rw [h]
  · intro σ http e h
    unfold fetchStats
    rw [h]

/-- Witness for C9: against an always-failing HTTP oracle, every service
function yields its empty/`null` fallback. -/
theorem api_error_absorption_witness :
    fetchIncomeData (fun _ _ => (Except.error "net" : Except String (List Nat)))
      ⟨none, none, none, none⟩ = []
    ∧ fetchJobAds (fun _ _ => (Except.error "net" : Except String (List Nat)))
      ⟨none, none, none, none⟩ = []
    ∧ fetchJobsAggregated (fun _ _ => (Except.error "net" : Except String (List Nat)))
      ⟨none, none, none, none⟩ = []
    ∧ fetchOccupations (fun _ _ => (Except.error "net" : Except String (List Nat))) = []
    ∧ fetchRegions (fun _ _ => (Except.error "net" : Except String (List Nat))) = []
    ∧ fetchIncomeDispersion (fun _ _ => (Except.error "net" : Except String (List Nat)))
      ⟨none, none, none, none⟩ = []
    ∧ fetchStats (fun _ _ => (Except.error "net" : Except String Nat)) = none :=
  ⟨api_error_absorption.1 Nat _ ⟨none, none, none, none⟩ "net" rfl,
   api_error_absorption.2.1 Nat _ ⟨none, none, none, none⟩ "net" rfl,
   api_error_absorption.2.2.1 Nat _ ⟨none, none, none, none⟩ "net" rfl,
   api_error_absorption.2.2.2.1 Nat _ "net" rfl,
   api_error_absorption.2.2.2.2.1 Nat _ "net" rfl,
   api_error_absorption.2.2.2.2.2.1 Nat _ ⟨none, none, none, none⟩ "net" rfl,
   api_error_absorption.2.2.2.2.2.2 Nat _ "net" rfl⟩

/-! ### Income chart aggregation -/

theorem updEntry_occ (g : String) (sal : Int) (e : AggEntry) :
    (updEntry g sal e).occupation = e.occupation := by
  unfold updEntry
  split_ifs <;> rfl

theorem updEntry_men (g : String) (sal : Int) (e : AggEntry) :
    (updEntry g sal e).men = e.men + (if g = "men" then sal else 0) := by
  unfold updEntry
  by_cases h1 : g = "men"
  · simp [h1]
  · by_cases h2 : g = "women" <;> simp [h1, h2]

theorem updEntry_menCount (g : String) (sal : Int) (e : AggEntry) :
    (updEntry g sal e).menCount = e.menCount + (if g = "men" then 1 else 0) := by
  unfold updEntry
  by_cases h1 : g = "men"
  · simp [h1]
  · by_cases h2 : g = "women" <;> simp [h1, h2]

theorem updEntry_women (g : String) (sal : Int) (e : AggEntry) :
    (updEntry g sal e).women = e.women + (if g = "women" then sal else 0) := by
  unfold updEntry
  by_cases h1 : g = "men"
  · have : g ≠ "women" := by rw [h1]; decide
    simp [h1, this]
  · by_cases h2 : g = "women" <;> simp [h1, h2]

theorem updEntry_womenCount (g : String) (sal : Int) (e : AggEntry) :
    (updEntry g sal e).womenCount = e.womenCount + (if g = "women" then 1 else 0) := by
  unfold updEntry
  by_cases h1 : g = "men"
  · have : g ≠ "women" := by rw [h1]; decide
    simp [h1, this]
  · by_cases h2 : g = "women" <;> simp [h1, h2]

theorem genderRows_append (ds : List ChartRow) (r : ChartRow) (o gg : String) :
    genderRows (ds ++ [r]) o gg = genderRows ds o gg ++
      (if jsOrString r.occupation "Unknown" = o ∧ jsOrString r.gender "unknown" = gg
        then [r] else []) := by
  unfold genderRows
  rw [List.filter_append]
  congr 1
  by_cases h : jsOrString r.occupation "Unknown" = o ∧ jsOrString r.gender "unknown" = gg
  · rw [if_pos h]
    simp only [List.filter]
    rw [decide_eq_true h]
  · rw [if_neg h]
    simp only [List.filter]
    rw [decide_eq_false h]

theorem genderSum_append (ds : List ChartRow) (r : ChartRow) (o gg : String) :
    genderSum (ds ++ [r]) o gg = genderSum ds o gg +
      (if jsOrString r.occupation "Unknown" = o ∧ jsOrString r.gender "unknown" = gg
        then jsOrZero r.monthly_salary else 0) := by
  unfold genderSum
  rw [genderRows_append, List.map_append, List.sum_append]
  congr 1
  split_ifs <;> simp

theorem genderCount_append (ds : List ChartRow) (r : ChartRow) (o gg : String) :
    genderCount (ds ++ [r]) o gg = genderCount ds o gg +
      (if jsOrString r.occupation "Unknown" = o ∧ jsOrString r.gender "unknown" = gg
        then 1 else 0) := by
  unfold genderCount
  rw [genderRows_append, List.length_append]
  congr 1
  split_ifs <;> simp

theorem genderRows_nil_of_not_mem (ds : List ChartRow) (o : String)
    (h : o ∉ ds.map (fun r => jsOrString r.occupation "Unknown")) (gg : String) :
    genderRows ds o gg = [] := by
  unfold genderRows
  rw [List.filter_eq_nil_iff]
  intro r hr hp
  simp only [decide_eq_true_eq] at hp
  exact h (List.mem_map.mpr ⟨r, hr, hp.1⟩)

theorem entryOk_untouched (ds : List ChartRow) (r : ChartRow) (e : AggEntry)
    (h : e.occupation ≠ jsOrString r.occupation "Unknown")
    (ihe : EntryOk ds e) : EntryOk (ds ++ [r]) e := by
  unfold EntryOk at *
  have hcond : jsOrString r.occupation "Unknown" ≠ e.occupation :=
    fun hh => h hh.symm
  simp only [genderSum_append, genderCount_append, hcond, false_and, if_false,
    add_zero]
  exact ihe

theorem entryOk_touched (ds : List ChartRow) (r : ChartRow) (e : AggEntry)
    (h : e.occupation = jsOrString r.occupation "Unknown")
    (ihe : EntryOk ds e) :
    EntryOk (ds ++ [r])
      (updEntry (jsOrString r.gender "unknown") (jsOrZero r.monthly_salary) e) := by
  obtain ⟨h1, h2, h3, h4⟩ := ihe
  unfold EntryOk
  rw [updEntry_occ, updEntry_men, updEntry_menCount, updEntry_women,
    updEntry_womenCount]
  simp only [genderSum_append, genderCount_append, ← h, eq_self_iff_true, true_and]
  exact ⟨by rw [h1], by rw [h2], by rw [h3], by rw [h4]⟩

theorem aggStep_exists_occ (A : List AggEntry) (r : ChartRow) (occ' : String)
    (h : ∃ e ∈ A, e.occupation = occ') :
    ∃ e' ∈ aggStep A r, e'.occupation = occ' := by
  rcases h with ⟨e, he, hk⟩
  unfold aggStep
  by_cases hany : A.any (fun q => q.occupation = jsOrString r.occupation "Unknown")
  · simp only [hany, if_true]
    by_cases heo : e.occupation = jsOrString r.occupation "Unknown"
    · refine ⟨updEntry (jsOrString r.gender "unknown") (jsOrZero r.monthly_salary) e,
        List.mem_map.mpr ⟨e, he, by simp [heo]⟩, ?_⟩
      rw [updEntry_occ, hk]
    · exact ⟨e, List.mem_map.mpr ⟨e, he, by simp [heo]⟩, hk⟩
  · simp only [hany, if_false]
    exact ⟨e, List.mem_append.mpr (Or.inl he), hk⟩

theorem aggStep_covers_new (A : List AggEntry) (r : ChartRow) :
    ∃ e' ∈ aggStep A r, e'.occupation = jsOrString r.occupation "Unknown" := by
  unfold aggStep
  by_cases hany : A.any (fun q => q.occupation = jsOrString r.occupation "Unknown")
  · simp only [hany, if_true]
    rcases List.any_eq_true.mp hany with ⟨e, he, hk⟩
    have hk' : e.occupation = jsOrString r.occupation "Unknown" :=
      of_decide_eq_true hk
    refine ⟨updEntry (jsOrString r.gender "unknown") (jsOrZero r.monthly_salary) e,
      List.mem_map.mpr ⟨e, he, by simp [hk']⟩, ?_⟩
    rw [updEntry_occ, hk']
  · simp only [hany, if_false]
    refine ⟨updEntry (jsOrString r.gender "unknown") (jsOrZero r.monthly_salary)
      ⟨jsOrString r.occupation "Unknown", 0, 0, 0, 0⟩,
      List.mem_append.mpr (Or.inr (List.mem_singleton.mpr rfl)), ?_⟩
    rw [updEntry_occ]

theorem aggregateIncome_append (ds : List ChartRow) (r : ChartRow) :
    aggregateIncome (ds ++ [r]) = aggStep (aggregateIncome ds) r := by
  unfold aggregateIncome
  rw [List.foldl_append]
  rfl

/-- The fold of `IncomeChart` computes, for every entry it holds, exactly
the filter-based per-gender sums and counts, and covers every occupation
seen in the data. -/
theorem aggregateIncome_invariant (data : List ChartRow) :
    (∀ occ' ∈ data.map (fun r => jsOrString r.occupation "Unknown"),
        ∃ e ∈ aggregateIncome data, e.occupation = occ')
    ∧ (∀ e ∈ aggregateIncome data, EntryOk data e) := by
  induction data using List.reverseRecOn with
  | nil =>
    constructor
    · intro occ' h
      simp at h
    · intro e he
      simp [aggregateIncome] at he
  | append_singleton ds r ih =>
    rw [aggregateIncome_append]
    obtain ⟨ihcov, ihok⟩ := ih
    constructor
    · intro occ' hocc'
      rw [List.map_append, List.mem_append] at hocc'
      rcases hocc' with hl | hr
      · exact aggStep_exists_occ _ r occ' (ihcov occ' hl)
      · simp only [List.map_cons, List.map_nil, List.mem_singleton] at hr
        subst hr
        exact aggStep_covers_new _ r
    · intro e' he'
      unfold aggStep at he'
      by_cases hany : (aggregateIncome ds).any
          (fun q => q.occupation = jsOrString r.occupation "Unknown")
      · simp only [hany, if_true] at he'
        rcases List.mem_map.mp he' with ⟨e, he, rfl⟩
        by_cases heo : e.occupation = jsOrString r.occupation "Unknown"
        · rw [if_pos heo]
          exact entryOk_touched ds r e heo (ihok e he)
        · rw [if_neg heo]
          exact entryOk_untouched ds r e heo (ihok e he)
      · simp only [hany, if_false] at he'
        rcases List.mem_append.mp he' with he | he
        · have heo : e'.occupation ≠ jsOrString r.occupation "Unknown" := by
            intro hh
            apply hany
            exact List.any_eq_true.mpr ⟨e', he, by simp [hh]⟩
          exact entryOk_untouched ds r e' heo (ihok e' he)
        · simp only [List.mem_singleton] at he
          subst he
          have hnotmem : jsOrString r.occupation "Unknown" ∉
              ds.map (fun q => jsOrString q.occupation "Unknown") := by
            intro hmem
            rcases ihcov _ hmem with ⟨e, he, hk⟩
            apply hany
            exact List.any_eq_true.mpr ⟨e, he, by simp [hk]⟩
          have hbase : EntryOk ds ⟨jsOrString r.occupation "Unknown", 0, 0, 0, 0⟩ := by
            unfold EntryOk genderSum genderCount
            rw [genderRows_nil_of_not_mem ds _ hnotmem,
              genderRows_nil_of_not_mem ds _ hnotmem]
            simp
          exact entryOk_touched ds r _ rfl hbase

/-- C10: IncomeChart null-to-zero coercion — a row whose `monthly_salary` is
null/undefined (or 0) contributes 0 to its gender's salary sum while still
incrementing that gender's row count, and the displayed average for an
occupation-gender pair equals `Math.round` of (sum of `monthly_salary || 0`
over that gender's rows) divided by (that gender's row count): at the chart
layer null salaries are coerced to zero and pull the average down instead
of being excluded. -/
theorem income_chart_null_to_zero :
    (∀ r : ChartRow, r.monthly_salary = none ∨ r.monthly_salary = some 0 →
        jsOrZero r.monthly_salary = 0)
    ∧ (∀ (data : List ChartRow), ∀ e ∈ aggregateIncome data,
        EntryOk data e
        ∧ (chartEntryOf e).men =
            (if 0 < genderCount data e.occupation "men"
             then jsRound (genderSum data e.occupation "men")
                    (genderCount data e.occupation "men") else 0)
        ∧ (chartEntryOf e).women =
            (if 0 < genderCount data e.occupation "women"
             then jsRound (genderSum data e.occupation "women")
                    (genderCount data e.occupation "women") else 0)) := by
  constructor
  · intro r h
    rcases h with h | h <;> rw [h] <;> rfl
  · intro data e he
    have hok := (aggregateIncome_invariant data).2 e he
    obtain ⟨h1, h2, h3, h4⟩ := hok
    refine ⟨⟨h1, h2, h3, h4⟩, ?_, ?_⟩
    · show (if 0 < e.menCount then jsRound e.men e.menCount else 0) = _
      rw [h1, h2]
    · show (if 0 < e.womenCount then jsRound e.women e.womenCount else 0) = _
      rw [h3, h4]

/-- Witness for C10: two male rows for occupation `"Dev"`, one with salary
50000 and one with a null salary; the entry sums 50000, counts 2 rows, and
the displayed average 25000 is pulled down by the null row. -/
theorem income_chart_null_to_zero_witness :
    jsOrZero ((⟨some "Dev", some "men", none⟩ : ChartRow)).monthly_salary = 0
    ∧ (EntryOk [⟨some "Dev", some "men", some 50000⟩, ⟨some "Dev", some "men", none⟩]
        ⟨"Dev", 50000, 0, 2, 0⟩
      ∧ (chartEntryOf ⟨"Dev", 50000, 0, 2, 0⟩).men =
          (if 0 < genderCount
              [⟨some "Dev", some "men", some 50000⟩, ⟨some "Dev", some "men", none⟩]
              "Dev" "men"
           then jsRound
              (genderSum
                [⟨some "Dev", some "men", some 50000⟩, ⟨some "Dev", some "men", none⟩]
                "Dev" "men")
              (genderCount
                [⟨some "Dev", some "men", some 50000⟩, ⟨some "Dev", some "men", none⟩]
                "Dev" "men") else 0)
      ∧ (chartEntryOf ⟨"Dev", 50000, 0, 2, 0⟩).women =
          (if 0 < genderCount
              [⟨some "Dev", some "men", some 50000⟩, ⟨some "Dev", some "men", none⟩]
              "Dev" "women"
           then jsRound
              (genderSum
                [⟨some "Dev", some "men", some 50000⟩, ⟨some "Dev", some "men", none⟩]
                "Dev" "women")
              (genderCount
                [⟨some "Dev", some "men", some 50000⟩, ⟨some "Dev", some "men", none⟩]
                "Dev" "women") else 0)) :=
  ⟨income_chart_null_to_zero.1 ⟨some "Dev", some "men", none⟩ (Or.inl rfl),
   income_chart_null_to_zero.2
     [⟨some "Dev", some "men", some 50000⟩, ⟨some "Dev", some "men", none⟩]
     ⟨"Dev", 50000, 0, 2, 0⟩ (by decide)⟩

end LabourStats
